import Mathlib

/-!
# Verification of the capture-upload-poll-replay pipeline

A shallow embedding of the call-recording subsystem of this repository:

* `uploadChunk` — `VideoRecorder.uploadChunk` (src/src/lib/recording.ts),
  against a path-addressed blob-store model.
* `dataAvailable` / `runData` — the `ondataavailable` handler installed by
  `VideoRecorder.start` and its iteration over the periodic 5-second
  `MediaRecorder` ticks.
* `stopOp` — `VideoRecorder.stop`, including the platform behaviour of
  `MediaRecorder.stop()` (one last `dataavailable` event flushing the buffered
  tail, then the `stop` event firing `onstop`).
* `handleCallEnded`, `handleError`, `checkProcessingStatus` / `runPoll`,
  `onChunkUploaded` — the corresponding handlers of `CallModal.tsx`.
* `handleVideoPlay` / `handleVideoTimeUpdate` / `handleVideoPause` /
  `handleVideoEnded` — the playback synchronizer of `ConversationDialog.tsx`
  (the per-session handlers of `StoryView.tsx` follow the same logic).

Binary blobs are modelled as byte lists; the single-threaded event loop is
modelled by applying the handlers in the order the platform fires the events.
-/

/-- A binary blob, modelled as its byte sequence. -/
abbrev Blob := List Nat

/-- A recording chunk handed to `uploadChunk`: payload and sequence number.
Mirrors `RecordingChunk` in src/src/lib/recording.ts; number `-1` marks the
final chunk, exactly as in the source. -/
structure RecordingChunk where
  blob : Blob
  number : Int
  deriving DecidableEq, Repr

/-- The blob store (Firebase Storage model): a path-addressed map of objects. -/
structure BlobStore where
  objects : List (String × Blob)
  deriving DecidableEq, Repr

/-- Look an object up by its path. -/
def BlobStore.lookup (st : BlobStore) (path : String) : Option Blob :=
  (st.objects.find? (fun e => e.1 == path)).map Prod.snd

/-- `uploadBytes`: store an object under a path, overwriting any existing one. -/
def BlobStore.put (st : BlobStore) (path : String) (b : Blob) : BlobStore :=
  ⟨(path, b) :: st.objects.filter (fun e => e.1 != path)⟩

/-- `getDownloadURL` resolves a stored object's path to a URL. -/
def downloadUrl (path : String) : String :=
  "https://firebasestorage.test/" ++ path

/-- The logical path `VideoRecorder.uploadChunk` computes for a chunk
(src/src/lib/recording.ts lines 129-132). -/
def chunkPath (storyId sessionId : String) (number : Int) : String :=
  if number = -1 then
    s!"recordings/{storyId}/{sessionId}/complete.webm"
  else
    let n := toString number
    s!"recordings/{storyId}/{sessionId}/chunks/chunk_{n}.webm"

/-- `VideoRecorder.uploadChunk` from src/src/lib/recording.ts: computes the
logical path, then calls `uploadBytes` ONLY when the chunk is final (the
`if (isFinal)` guard at line 143), and finally `getDownloadURL`, which succeeds
exactly when an object exists at the path. Returns the updated store and either
the URL or the thrown storage error. -/
def uploadChunk (storyId sessionId : String) (st : BlobStore)
    (chunk : RecordingChunk) : BlobStore × Except String String :=
  let isFinal := chunk.number = -1
  let fileName := chunkPath storyId sessionId chunk.number
  let st1 := if isFinal then st.put fileName chunk.blob else st
  match st1.lookup fileName with
  | some _ => (st1, Except.ok (downloadUrl fileName))
  | none => (st1, Except.error "storage/object-not-found")

/-- `VideoRecorder.uploadChunk` from the earlier revision of the recorder
(src/unnamed/part_007 lines 115-139): `uploadBytes` runs unconditionally, for
final and non-final chunks alike, before `getDownloadURL`. (That revision also
appends a UUID to the file name; the UUID is omitted here as it plays no role in
the claims.) -/
def uploadChunk_legacy (storyId sessionId : String) (st : BlobStore)
    (chunk : RecordingChunk) : BlobStore × Except String String :=
  let fileName := chunkPath storyId sessionId chunk.number
  let st1 := st.put fileName chunk.blob
  match st1.lookup fileName with
  | some _ => (st1, Except.ok (downloadUrl fileName))
  | none => (st1, Except.error "storage/object-not-found")

/-- A chunk handed to the upload client (`uploadChunk` invocation), as observed
by the Recorder's consumer: sequence number, cumulative payload, final flag. -/
structure Upload where
  num : Int
  blob : Blob
  isFinal : Bool
  deriving DecidableEq, Repr

/-- The non-final chunks of a list of handed uploads. -/
def nonFinalUploads (us : List Upload) : List Upload :=
  us.filter (fun u => !u.isFinal)

/-- How many of the handed uploads are tagged final. -/
def finalUploadCount (us : List Upload) : Nat :=
  (us.filter (fun u => u.isFinal)).length

/-- The `ondataavailable` handler installed by `VideoRecorder.start`
(src/src/lib/recording.ts lines 50-70). State is the pair
(`this.chunks`, `this.chunkNumber`). If the delivered segment has more than
zero bytes it is pushed, the cumulative blob is rebuilt from all segments so
far, and that blob is handed to the upload client tagged with the next sequence
number; an empty segment changes nothing. -/
def dataAvailable (st : List Blob × Nat) (seg : Blob) :
    (List Blob × Nat) × Option Upload :=
  if 0 < seg.length then
    let chunks := st.1 ++ [seg]
    ((chunks, st.2 + 1), some ⟨Int.ofNat st.2, chunks.flatten, false⟩)
  else
    (st, none)

/-- Iterate `dataAvailable` over the segments the platform delivers, collecting
the uploads handed to the upload client in order. -/
def runData (st : List Blob × Nat) : List Blob → (List Blob × Nat) × List Upload
  | [] => (st, [])
  | seg :: rest =>
      let p := dataAvailable st seg
      let q := runData p.1 rest
      (q.1, p.2.toList ++ q.2)

/-- The state of the platform `MediaRecorder`. -/
inductive MRState
  | recording
  | inactive
  deriving DecidableEq, Repr

/-- The fields of the `VideoRecorder` class (src/src/lib/recording.ts lines
12-19). `audioTrack = some b` means a track reference is held and `b` records
whether `.stop()` has been called on it. -/
structure RecState where
  mediaRecorder : Option MRState
  chunks : List Blob
  chunkNumber : Nat
  audioTrack : Option Bool
  storyId : String
  sessionId : String
  deriving DecidableEq, Repr

/-- A freshly constructed `VideoRecorder`. -/
def RecState.mk0 (storyId sessionId : String) : RecState :=
  ⟨none, [], 0, none, storyId, sessionId⟩

/-- `VideoRecorder.start`: creates the `MediaRecorder` over the video-only
stream and keeps the audio track reference (lines 31-78; the handler it
installs is `dataAvailable`). -/
def startRec (st : RecState) : RecState :=
  { st with mediaRecorder := some MRState.recording, audioTrack := some false }

/-- The outcome of one `VideoRecorder.stop` call. `handed` lists the chunks
passed to `uploadChunk` during the call, in order; `sessionWrite` records
whether the `updateDoc` writing `videoUrl`/`videoComplete` ran; `resolved` is
the value the returned promise settles to, `none` when it never resolves. -/
structure StopResult where
  state : RecState
  handed : List Upload
  sessionWrite : Bool
  resolved : Option (List String)
  deriving DecidableEq, Repr

/-- `VideoRecorder.stop` (src/src/lib/recording.ts lines 80-125). With no
`mediaRecorder` it warns and returns `[]` without touching anything. Otherwise
it stops the audio track and calls `MediaRecorder.stop()`; per the platform
contract that fires one last `dataavailable` event carrying the buffered tail
`flush` (processed by `dataAvailable`, so a nonempty tail is handed on as one
more non-final chunk) and then the `stop` event, whose handler builds the final
blob from all segments, uploads it with number `-1`, writes the session record
and resolves with the final URL — or, when the final upload's round trip fails
(`finalUploadOk = false`), catches the error and resolves with `[]`. Calling
`stop()` on an already-inactive recorder fires no events, so the promise never
resolves. -/
def stopOp (flush : Blob) (finalUploadOk : Bool) (st : RecState) : StopResult :=
  match st.mediaRecorder with
  | none => ⟨st, [], false, some []⟩
  | some mrs =>
      let st1 := { st with audioTrack := st.audioTrack.map (fun _ => true) }
      match mrs with
      | MRState.inactive => ⟨st1, [], false, none⟩
      | MRState.recording =>
          let p := dataAvailable (st1.chunks, st1.chunkNumber) flush
          let st2 := { st1 with mediaRecorder := some MRState.inactive,
                                chunks := p.1.1, chunkNumber := p.1.2 }
          let finalUp : Upload := ⟨-1, st2.chunks.flatten, true⟩
          if finalUploadOk then
            ⟨st2, p.2.toList ++ [finalUp], true,
              some [downloadUrl (chunkPath st.storyId st.sessionId (-1))]⟩
          else
            ⟨st2, p.2.toList ++ [finalUp], false, some []⟩

/-- The segments captured during a `T`-second phase with 5-second ticks:
one segment per full tick, plus the tail buffered after the last full tick
(empty, hence absent, when `T` is a multiple of 5). `segAt i` is the data the
encoder produced during the `i`-th interval. -/
def phaseSegs (T : Nat) (segAt : Nat → Blob) : List Blob :=
  (List.range (T / 5)).map segAt ++ (if T % 5 = 0 then [] else [segAt (T / 5)])

/-- A full capture phase of `T` seconds: the recorder (started by
`VideoRecorder.start` with a 5000 ms timeslice) receives one `dataavailable`
event per full 5-second tick, then `VideoRecorder.stop` runs, flushing the
buffered tail and uploading the final blob. Returns the chunks handed to the
upload client, in order. The handed list is a pure function of the captured
segments: sequence numbers and payloads are fixed synchronously before each
upload is awaited, so upload latencies cannot affect it. -/
def capturePhase (T : Nat) (segAt : Nat → Blob) : List Upload :=
  let ticks := (List.range (T / 5)).map segAt
  let p := runData ([], 0) ticks
  let rs : RecState :=
    ⟨some MRState.recording, p.1.1, p.1.2, some false, "story", "session"⟩
  let flush := if T % 5 = 0 then [] else segAt (T / 5)
  let r := stopOp flush true rs
  p.2 ++ r.handed

/-- The UI/controller state of `CallModal.tsx` relevant to the call lifecycle:
the `useState` flags, whether the 30-second connection timeout and the polling
interval are live, whether the camera/microphone stream is held
(`streamRef.current !== null`, with its tracks live) and attached to the video
element, and whether an error toast has been surfaced. -/
structure CtrlState where
  isCallActive : Bool
  isLoading : Bool
  timeoutActive : Bool
  isProcessing : Bool
  processingProgress : Nat
  pollingActive : Bool
  streamLive : Bool
  videoSrcSet : Bool
  errorToast : Bool
  deriving DecidableEq, Repr

/-- `handleError` from `CallModal.tsx` (lines 259-265): clears the connection
timeout, surfaces an error toast, and clears the loading and call-active flags.
It touches nothing else — in particular it does not stop the stream's tracks. -/
def handleError (st : CtrlState) : CtrlState :=
  { st with timeoutActive := false, errorToast := true,
            isLoading := false, isCallActive := false }

/-- `handleCallEnded` from `CallModal.tsx` (lines 205-249), in the case where
story/session ids are present and a recorder exists: clears the active flag,
enters processing with progress 0, awaits `VideoRecorder.stop`, then (after a
1-second pause) installs the 2-second polling interval; the `finally` block
releases the camera stream and detaches it from the video element. When the
stop promise never resolves the `await` never completes: only the synchronous
prefix has run and the returned completion flag is `false`. The `catch` branch
(error toast) is unreachable from a final-upload failure because `stop`
resolves normally in that case. -/
def handleCallEnded (flush : Blob) (finalUploadOk : Bool) (rs : RecState)
    (st : CtrlState) : CtrlState × StopResult × Bool :=
  let st1 := { st with isCallActive := false, isProcessing := true,
                       processingProgress := 0 }
  let r := stopOp flush finalUploadOk rs
  match r.resolved with
  | some _ =>
      ({ st1 with pollingActive := true, streamLive := false,
                  videoSrcSet := false }, r, true)
  | none => (st1, r, false)

/-- The poller's state: the `processingProgress` and `isProcessing` pieces of
`CallModal` state, whether the `setInterval` handle is still installed, and
whether `onClose(true)` has been called (the Controller advanced to Complete). -/
structure PollState where
  processingProgress : Nat
  isProcessing : Bool
  intervalActive : Bool
  closedComplete : Bool
  deriving DecidableEq, Repr

/-- One invocation of `checkProcessingStatus` (`CallModal.tsx` lines 100-121).
`reading` is what the Firestore read observes: `none` when the story document
is missing or the read throws (the function returns without touching state),
otherwise the session's `updated` flag. On `true` it clears the interval,
leaves processing, sets progress to 100 and calls `onClose(true)`; on `false`
it advances progress by 5, capped at 90. -/
def checkProcessingStatus (reading : Option Bool) (st : PollState) : PollState :=
  match reading with
  | none => st
  | some true => ⟨100, false, false, true⟩
  | some false => { st with processingProgress := min (st.processingProgress + 5) 90 }

/-- The polling loop: while the interval is installed, each 2-second tick
issues one Firestore read and runs `checkProcessingStatus`; once the interval
has been cleared no further reads are issued. Returns the final state and the
number of reads issued. -/
def runPoll (st : PollState) : List (Option Bool) → PollState × Nat
  | [] => (st, 0)
  | r :: rest =>
      if st.intervalActive then
        let q := runPoll (checkProcessingStatus r st) rest
        (q.1, q.2 + 1)
      else (st, 0)

/-- The poll period passed to `setInterval` in `handleCallEnded` (line 234). -/
def pollIntervalMs : Nat := 2000

/-- The poller's state when polling starts: `handleCallEnded` has just set
progress to 0 and `isProcessing` to true and installed the interval. -/
def pollStart : PollState := ⟨0, true, true, false⟩

/-- The persisted per-session record fields this core writes (the
`sessions.{sessionId}.*` entries of the story document). -/
structure SessionRecord where
  videoChunkUrl : Option String
  videoUrl : Option String
  videoComplete : Bool
  lastUpdated : Option Nat
  deriving DecidableEq, Repr

/-- The `onChunkUploaded` callback `CallModal.tsx` installs on the recorder
(lines 178-195). Note its arguments: it receives only the URL and the final
flag — the chunk's sequence number is never passed to it. For the final chunk
it writes `videoUrl`, `videoComplete` and the `lastUpdated` timestamp; for a
non-final chunk it writes the single `videoChunkUrl` field and the timestamp. -/
def onChunkUploaded (now : Nat) (url : String) (isFinal : Bool)
    (r : SessionRecord) : SessionRecord :=
  if isFinal then
    { r with videoUrl := some url, videoComplete := true, lastUpdated := some now }
  else
    { r with videoChunkUrl := some url, lastUpdated := some now }

/-- The playback synchronizer's state (`ConversationDialog.tsx`): the master
video element's time, the slave audio element's time (both in milliseconds),
whether the audio element is paused, and the mute flag. -/
structure PlaybackState where
  videoTimeMs : Int
  audioTimeMs : Int
  audioPaused : Bool
  audioMuted : Bool
  deriving DecidableEq, Repr

/-- The drift tolerance: `> 0.1` seconds in the source, i.e. 100 ms. -/
def driftToleranceMs : Nat := 100

/-- `handleVideoPlay` (`ConversationDialog.tsx` lines 30-35): unless muted,
seek the audio element to the master's current time and start it. -/
def handleVideoPlay (st : PlaybackState) : PlaybackState :=
  if st.audioMuted then st
  else { st with audioTimeMs := st.videoTimeMs, audioPaused := false }

/-- `handleVideoPause` (lines 37-41): pause the audio element. -/
def handleVideoPause (st : PlaybackState) : PlaybackState :=
  { st with audioPaused := true }

/-- `handleVideoTimeUpdate` (lines 43-49): when not muted and the drift exceeds
the tolerance, reseek the audio element to the master's time. -/
def handleVideoTimeUpdate (st : PlaybackState) : PlaybackState :=
  if st.audioMuted = false ∧
      driftToleranceMs < (st.audioTimeMs - st.videoTimeMs).natAbs then
    { st with audioTimeMs := st.videoTimeMs }
  else st

/-- `handleVideoEnded` (lines 51-56): pause the audio element and rewind it. -/
def handleVideoEnded (st : PlaybackState) : PlaybackState :=
  { st with audioPaused := true, audioTimeMs := 0 }

/-! ## Lemmas about the capture loop -/

/-- Running the `ondataavailable` handler over nonempty segments: every segment
is pushed, each handed upload carries the next sequence number and the
cumulative blob of all segments so far. -/
theorem runData_eq (segs : List Blob) (h : ∀ s ∈ segs, s ≠ []) :
    ∀ cs k, runData (cs, k) segs =
      ((cs ++ segs, k + segs.length),
        (List.range segs.length).map
          (fun i => ⟨Int.ofNat (k + i), (cs ++ segs.take (i + 1)).flatten, false⟩)) := by
  induction segs with
  | nil => intro cs k; simp [runData]
  | cons s rest ih =>
      intro cs k
      have hs : s ≠ [] := h s (by simp)
      have hlen : 0 < s.length := List.length_pos.mpr hs
      have hrest : ∀ x ∈ rest, x ≠ [] := fun x hx => h x (by simp [hx])
      have ihr := ih hrest (cs ++ [s]) (k + 1)
      simp only [runData, dataAvailable, hlen, if_pos, ihr, Option.toList_some,
        List.singleton_append, List.length_cons, List.range_succ_eq_map,
        List.map_cons, List.map_map, Prod.mk.injEq]
      refine ⟨⟨by simp, by omega⟩, ?_⟩
      refine List.cons_eq_cons.mpr ⟨by simp, ?_⟩
      refine List.map_congr_left (fun i _ => ?_)
      simp only [Function.comp_apply, List.take_succ_cons]
      have hadd : k + 1 + i = k + (i + 1) := by omega
      have happ : cs ++ s :: rest.take (i + 1) = (cs ++ [s]) ++ rest.take (i + 1) := by
        simp
      rw [hadd, happ]

/-- Over an arbitrary segment list — empty segments included — the sequence
numbers of the handed uploads are consecutive, starting at the current counter:
one per nonempty segment, none for an empty one. -/
theorem runData_nums (segs : List Blob) :
    ∀ cs k, (runData (cs, k) segs).2.map Upload.num =
      (List.range ((segs.filter (fun s => 0 < s.length)).length)).map
        (fun i => Int.ofNat (k + i)) := by
  induction segs with
  | nil => intro cs k; simp [runData]
  | cons s rest ih =>
      intro cs k
      by_cases hlen : 0 < s.length
      · have hfil : List.filter (fun x => decide (0 < List.length x)) (s :: rest)
            = s :: List.filter (fun x => decide (0 < List.length x)) rest := by
          simp [List.filter_cons, hlen]
        simp only [runData, dataAvailable]
        rw [if_pos hlen]
        simp only [hfil, Option.toList_some, List.singleton_append, List.map_cons,
          ih (cs ++ [s]) (k + 1), List.length_cons, List.range_succ_eq_map,
          List.map_map]
        refine List.cons_eq_cons.mpr ⟨by simp, ?_⟩
        refine List.map_congr_left (fun i _ => ?_)
        simp only [Function.comp_apply]
        congr 1
        omega
      · have hfil : List.filter (fun x => decide (0 < List.length x)) (s :: rest)
            = List.filter (fun x => decide (0 < List.length x)) rest := by
          simp [List.filter_cons, hlen]
        simp only [runData, dataAvailable]
        rw [if_neg hlen]
        simp only [hfil, Option.toList_none, List.nil_append, ih cs k]

/-- Every segment of a `T`-second phase is nonempty, provided the encoder
delivers data on every full tick and on a nonzero tail. -/
theorem phaseSegs_ne_nil (T : Nat) (segAt : Nat → Blob)
    (hTick : ∀ i, i < T / 5 → segAt i ≠ [])
    (hFlush : T % 5 ≠ 0 → segAt (T / 5) ≠ []) :
    ∀ s ∈ phaseSegs T segAt, s ≠ [] := by
  intro s hs
  simp only [phaseSegs, List.mem_append, List.mem_map, List.mem_range] at hs
  rcases hs with ⟨i, hi, rfl⟩ | hs
  · exact hTick i hi
  · by_cases h5 : T % 5 = 0
    · simp [h5] at hs
    · rw [if_neg h5] at hs
      simp only [List.mem_singleton] at hs
      subst hs
      exact hFlush h5

/-- The chunks a `T`-second capture phase hands to the upload client, in closed
form: for each of the `(phaseSegs T segAt).length` nonempty segments, one
non-final chunk with consecutive sequence numbers `0, 1, 2, …` carrying the
cumulative blob of all segments so far, followed by the single final chunk
(number `-1`) carrying the complete recording. -/
theorem capturePhase_eq (T : Nat) (segAt : Nat → Blob)
    (hTick : ∀ i, i < T / 5 → segAt i ≠ [])
    (hFlush : T % 5 ≠ 0 → segAt (T / 5) ≠ []) :
    capturePhase T segAt =
      (List.range (phaseSegs T segAt).length).map
        (fun i => ⟨Int.ofNat i, ((phaseSegs T segAt).take (i + 1)).flatten, false⟩)
      ++ [⟨-1, (phaseSegs T segAt).flatten, true⟩] := by
  have hticks : ∀ s ∈ (List.range (T / 5)).map segAt, s ≠ [] := by
    intro s hs
    simp only [List.mem_map, List.mem_range] at hs
    obtain ⟨i, hi, rfl⟩ := hs
    exact hTick i hi
  have hrun := runData_eq ((List.range (T / 5)).map segAt) hticks [] 0
  by_cases h5 : T % 5 = 0
  · -- the stop-time flush is empty: it is dropped by the size guard
    simp only [capturePhase, hrun, h5, if_pos, stopOp, dataAvailable,
      List.length_nil, Nat.lt_irrefl, if_neg, Option.toList_none,
      List.nil_append, phaseSegs, List.append_nil, List.length_map,
      List.length_range, Nat.zero_add]
    simp
  · -- the nonzero tail is flushed through ondataavailable as one more chunk
    have hf : segAt (T / 5) ≠ [] := hFlush h5
    have hflen : 0 < (segAt (T / 5)).length := List.length_pos.mpr hf
    have hsegs : phaseSegs T segAt
        = (List.range (T / 5)).map segAt ++ [segAt (T / 5)] := by
      simp [phaseSegs, h5]
    have hflush : (if T % 5 = 0 then ([] : Blob) else segAt (T / 5))
        = segAt (T / 5) := if_neg h5
    have htake : ((List.range (T / 5)).map segAt ++ [segAt (T / 5)]).take (T / 5 + 1)
        = (List.range (T / 5)).map segAt ++ [segAt (T / 5)] :=
      List.take_of_length_le (by simp)
    simp only [capturePhase, hflush, hrun, stopOp, dataAvailable]
    rw [if_pos hflen]
    simp only [Option.toList_some, hsegs, List.length_append, List.length_map,
      List.length_range, List.length_singleton, List.nil_append, Nat.zero_add]
    rw [List.range_succ, List.map_append]
    simp only [List.map_cons, List.map_nil, List.singleton_append,
      List.nil_append, List.append_assoc, htake]
    refine congrArg₂ _ ?_ ?_
    · refine List.map_congr_left (fun i hi => ?_)
      simp only [List.mem_range] at hi
      rw [List.take_append_of_le_length (by simp; omega)]
    · rfl

/-! ## Lemmas about the polling loop -/

/-- Once the interval has been cleared, no tick does anything. -/
theorem runPoll_inactive (rs : List (Option Bool)) (st : PollState)
    (h : st.intervalActive = false) : runPoll st rs = (st, 0) := by
  cases rs with
  | nil => rfl
  | cons r rest => simp [runPoll, h]

/-- Splitting a polling run at any point composes the two halves' states and
read counts. -/
theorem runPoll_append (as bs : List (Option Bool)) : ∀ st : PollState,
    runPoll st (as ++ bs) =
      ((runPoll (runPoll st as).1 bs).1,
        (runPoll st as).2 + (runPoll (runPoll st as).1 bs).2) := by
  induction as with
  | nil => intro st; simp [runPoll]
  | cons a rest ih =>
      intro st
      by_cases hact : st.intervalActive
      · simp only [List.cons_append, runPoll, hact, if_pos, List.append_eq]
        rw [ih (checkProcessingStatus a st)]
        refine Prod.ext rfl ?_
        simp only
        omega
      · have hact' : st.intervalActive = false := by
          simpa using hact
        rw [runPoll_inactive _ _ hact', runPoll_inactive _ _ hact',
          runPoll_inactive _ _ hact']
        simp [List.cons_append, runPoll, hact']

/-- A run of readings none of which observes the `updated` flag: the interval
stays installed, every tick issues a read, `onClose(true)` is never called,
`isProcessing` stays put, and the progress estimate is non-decreasing but
capped at 90. -/
theorem runPoll_noTrue (rs : List (Option Bool)) : ∀ st : PollState,
    st.intervalActive = true → st.processingProgress ≤ 90 →
    (∀ r ∈ rs, r ≠ some true) →
    (runPoll st rs).1.intervalActive = true
    ∧ (runPoll st rs).1.closedComplete = st.closedComplete
    ∧ (runPoll st rs).1.isProcessing = st.isProcessing
    ∧ (runPoll st rs).2 = rs.length
    ∧ st.processingProgress ≤ (runPoll st rs).1.processingProgress
    ∧ (runPoll st rs).1.processingProgress ≤ 90 := by
  induction rs with
  | nil =>
      intro st hact hbound _
      exact ⟨hact, rfl, rfl, rfl, le_refl _, hbound⟩
  | cons r rest ih =>
      intro st hact hbound hno
      have hr : r ≠ some true := hno r (by simp)
      have hrest : ∀ x ∈ rest, x ≠ some true := fun x hx => hno x (by simp [hx])
      have hstep : (checkProcessingStatus r st).intervalActive = true
          ∧ (checkProcessingStatus r st).closedComplete = st.closedComplete
          ∧ (checkProcessingStatus r st).isProcessing = st.isProcessing
          ∧ st.processingProgress ≤ (checkProcessingStatus r st).processingProgress
          ∧ (checkProcessingStatus r st).processingProgress ≤ 90 := by
        match r with
        | none => exact ⟨hact, rfl, rfl, le_refl _, hbound⟩
        | some true => exact absurd rfl hr
        | some false =>
            refine ⟨hact, rfl, rfl, ?_, ?_⟩
            · simp only [checkProcessingStatus]
              omega
            · simp only [checkProcessingStatus]
              omega
      obtain ⟨h1, h2, h3, h4, h5⟩ := hstep
      have ihr := ih (checkProcessingStatus r st) h1 h5 hrest
      simp only [runPoll, hact, if_pos]
      refine ⟨ihr.1, ?_, ?_, ?_, ?_, ihr.2.2.2.2.2⟩
      · rw [ihr.2.1, h2]
      · rw [ihr.2.2.1, h3]
      · simp [ihr.2.2.2.1]
      · exact le_trans h4 ihr.2.2.2.2.1

/-- Splitting the uploads of a capture phase: the non-final chunks are exactly
the per-segment cumulative ones, and exactly one chunk is tagged final. -/
theorem capturePhase_split (T : Nat) (segAt : Nat → Blob)
    (hTick : ∀ i, i < T / 5 → segAt i ≠ [])
    (hFlush : T % 5 ≠ 0 → segAt (T / 5) ≠ []) :
    nonFinalUploads (capturePhase T segAt)
      = (List.range (phaseSegs T segAt).length).map
          (fun i => ⟨Int.ofNat i, ((phaseSegs T segAt).take (i + 1)).flatten, false⟩)
    ∧ finalUploadCount (capturePhase T segAt) = 1 := by
  rw [show capturePhase T segAt = _ from capturePhase_eq T segAt hTick hFlush]
  constructor
  · simp [nonFinalUploads, List.filter_append, List.filter_map, Function.comp_def]
  · simp [finalUploadCount, List.filter_append, List.filter_map, Function.comp_def]

/-! ## The claims -/

/-- C1: counterexample. A 17-second capture phase with data on every tick hands
the upload client 4 non-final chunks, not `⌊17/5⌋ = 3`: `MediaRecorder.stop()`
flushes the 15 s–17 s tail through `ondataavailable` before firing `stop`, and
that tail is handed on as one more non-final chunk. -/
theorem C1_counterexample :
    (nonFinalUploads (capturePhase 17 (fun i => [i]))).length ≠ 17 / 5 := by
  decide

/-- C1 (amended): a capture phase of `T` seconds with 5-second ticks, with the
encoder delivering data on every full tick and on a nonzero tail, hands the
upload client exactly `⌊T/5⌋` non-final chunks — plus one more when `T` is not
a multiple of 5, from the tail flushed by `MediaRecorder.stop()` — with
strictly increasing, consecutive sequence numbers `0, 1, 2, …`; every
non-final chunk's blob is the cumulative recording of all segments through its
tick, so each later non-final chunk's content strictly extends the previous
one's; and exactly one chunk is tagged final. The handed list is a pure
function of the captured segments, so individual upload latencies cannot
change it. -/
theorem C1_amended (T : Nat) (segAt : Nat → Blob)
    (hTick : ∀ i, i < T / 5 → segAt i ≠ [])
    (hFlush : T % 5 ≠ 0 → segAt (T / 5) ≠ []) :
    (nonFinalUploads (capturePhase T segAt)).length
        = T / 5 + (if T % 5 = 0 then 0 else 1)
    ∧ (nonFinalUploads (capturePhase T segAt)).map Upload.num
        = (List.range (nonFinalUploads (capturePhase T segAt)).length).map Int.ofNat
    ∧ (nonFinalUploads (capturePhase T segAt)).map Upload.blob
        = (List.range (phaseSegs T segAt).length).map
            (fun i => ((phaseSegs T segAt).take (i + 1)).flatten)
    ∧ (∀ i, ∀ h : i + 1 < (nonFinalUploads (capturePhase T segAt)).length,
        ∃ t, t ≠ [] ∧
          ((nonFinalUploads (capturePhase T segAt)).get ⟨i + 1, h⟩).blob
            = ((nonFinalUploads (capturePhase T segAt)).get
                ⟨i, Nat.lt_of_succ_lt h⟩).blob ++ t)
    ∧ finalUploadCount (capturePhase T segAt) = 1 := by
  obtain ⟨hnf, hfin⟩ := capturePhase_split T segAt hTick hFlush
  have hlen : (nonFinalUploads (capturePhase T segAt)).length
      = (phaseSegs T segAt).length := by
    simp [hnf]
  have hplen : (phaseSegs T segAt).length
      = T / 5 + (if T % 5 = 0 then 0 else 1) := by
    by_cases h5 : T % 5 = 0 <;> simp [phaseSegs, h5]
  refine ⟨hlen.trans hplen, ?_, ?_, ?_, hfin⟩
  · simp [hnf, List.map_map, Function.comp_def]
  · simp [hnf, List.map_map, Function.comp_def]
  · intro i h
    have hi1 : i + 1 < (phaseSegs T segAt).length := hlen ▸ h
    have hi0 : i < (phaseSegs T segAt).length := Nat.lt_of_succ_lt hi1
    refine ⟨(phaseSegs T segAt).get ⟨i + 1, hi1⟩, ?_, ?_⟩
    · exact phaseSegs_ne_nil T segAt hTick hFlush _ (List.get_mem _ _ _)
    · have hget : ∀ j (hj : j < (nonFinalUploads (capturePhase T segAt)).length),
          ((nonFinalUploads (capturePhase T segAt)).get ⟨j, hj⟩).blob
            = ((phaseSegs T segAt).take (j + 1)).flatten := by
        intro j hj
        have hj' : j < (phaseSegs T segAt).length := hlen ▸ hj
        simp [hnf, List.get_eq_getElem]
      rw [hget (i + 1) h, hget i (Nat.lt_of_succ_lt h)]
      have ht : (phaseSegs T segAt).take (i + 1 + 1)
          = (phaseSegs T segAt).take (i + 1)
            ++ [(phaseSegs T segAt).get ⟨i + 1, hi1⟩] := by
        rw [List.take_succ]
        simp [List.getElem?_eq_getElem hi1]
      rw [ht, List.flatten_append]
      simp

/-- C1: witness for the amended theorem, at a 7-second phase whose encoder
delivers one byte per segment: one full tick plus the flushed tail. -/
theorem C1_amended_witness :
    (nonFinalUploads (capturePhase 7 (fun i => [i]))).length
      = 7 / 5 + (if 7 % 5 = 0 then 0 else 1) :=
  (C1_amended 7 (fun i => [i]) (fun _ _ => by simp) (fun _ => by simp)).1

/-- C2: the failing input evaluated. For a non-final chunk (number 0) against a
fresh store, `uploadChunk` of src/src/lib/recording.ts leaves the store
unchanged — the blob is never persisted, because `uploadBytes` runs only under
the `if (isFinal)` guard — and the trailing `getDownloadURL` fails with
object-not-found. The prior revision's `uploadChunk` (src/unnamed/part_007)
persists the same chunk and returns its URL. -/
theorem C2_nonfinal_never_persisted :
    (uploadChunk "s" "x" ⟨[]⟩ ⟨[1, 2, 3], 0⟩).1 = (⟨[]⟩ : BlobStore)
    ∧ (uploadChunk "s" "x" ⟨[]⟩ ⟨[1, 2, 3], 0⟩).2
        = Except.error "storage/object-not-found"
    ∧ (uploadChunk_legacy "s" "x" ⟨[]⟩ ⟨[1, 2, 3], 0⟩).1.lookup
        (chunkPath "s" "x" 0) = some [1, 2, 3]
    ∧ (uploadChunk_legacy "s" "x" ⟨[]⟩ ⟨[1, 2, 3], 0⟩).2
        = Except.ok (downloadUrl (chunkPath "s" "x" 0)) := by
  exact ⟨rfl, rfl, by decide, rfl⟩

/-- A recorder on which `start` has run and two 1-byte segments have been
captured, as it stands when the call ends. -/
def recStarted : RecState :=
  ⟨some MRState.recording, [[1], [2]], 2, some false, "story", "session"⟩

/-- The controller state during an active call: connected, stream held and
attached, no timeout pending, no polling, no toast. -/
def ctrlActive : CtrlState :=
  ⟨true, false, false, false, 0, false, true, true, false⟩

/-- C3: counterexample. When the final-chunk upload fails, `stop` does not
propagate the failure: it catches the error and resolves normally with `[]`,
and `handleCallEnded` proceeds to install the poller with no error surfaced —
the Controller ends up awaiting processing, not in a failed state. -/
theorem C3_counterexample :
    (stopOp [9] false recStarted).resolved = some []
    ∧ (handleCallEnded [9] false recStarted ctrlActive).1.pollingActive = true
    ∧ (handleCallEnded [9] false recStarted ctrlActive).1.isProcessing = true
    ∧ (handleCallEnded [9] false recStarted ctrlActive).1.errorToast = false := by
  refine ⟨rfl, rfl, rfl, rfl⟩

/-- C3 (amended): for every started recorder, a final-chunk upload failure is
caught inside `stop`'s `onstop` handler, which performs no session write and
resolves normally with an empty URL list; `handleCallEnded`'s `await` therefore
completes normally and the Controller proceeds exactly as on success — it
enters processing, starts the poller and releases the stream — surfacing no
error and entering no failed state. -/
theorem C3_amended (flush : Blob) (rs : RecState) (st : CtrlState)
    (h : rs.mediaRecorder = some MRState.recording) :
    (stopOp flush false rs).resolved = some []
    ∧ (stopOp flush false rs).sessionWrite = false
    ∧ (handleCallEnded flush false rs st).1.pollingActive = true
    ∧ (handleCallEnded flush false rs st).1.isProcessing = true
    ∧ (handleCallEnded flush false rs st).1.streamLive = false
    ∧ (handleCallEnded flush false rs st).1.errorToast = st.errorToast
    ∧ (handleCallEnded flush false rs st).2.2 = true := by
  simp [stopOp, handleCallEnded, h]

/-- C3: witness for the amended theorem at a concrete started recorder. -/
theorem C3_amended_witness :
    (stopOp [9] false recStarted).sessionWrite = false
    ∧ (handleCallEnded [9] false recStarted ctrlActive).1.pollingActive = true :=
  ⟨(C3_amended [9] recStarted ctrlActive rfl).2.1,
    (C3_amended [9] recStarted ctrlActive rfl).2.2.1⟩

/-- C8: calling `stop` twice on a started recorder performs exactly one final
upload in total. The first call stops the `MediaRecorder`, whose `onstop`
handler uploads the final chunk once; the second call finds the recorder
already inactive, so `MediaRecorder.stop()` fires no events and no further
upload happens (the second promise simply never resolves). -/
theorem C8_stop_idempotent (flush1 flush2 : Blob) (ok1 ok2 : Bool)
    (rs : RecState) (h : rs.mediaRecorder = some MRState.recording) :
    finalUploadCount (stopOp flush1 ok1 rs).handed
      + finalUploadCount (stopOp flush2 ok2 (stopOp flush1 ok1 rs).state).handed
      = 1 := by
  by_cases hf : 0 < flush1.length <;> cases ok1 <;>
    simp [stopOp, h, dataAvailable, hf, finalUploadCount]

/-- C8: witness at a concrete started recorder. -/
theorem C8_witness :
    finalUploadCount (stopOp [3] true recStarted).handed
      + finalUploadCount
          (stopOp [4] true (stopOp [3] true recStarted).state).handed = 1 :=
  C8_stop_idempotent [3] [4] true true recStarted rfl

/-- C9: calling `stop` before `start` has ever run (no `mediaRecorder` exists)
does not throw and uploads nothing: it resolves with the empty URL list, hands
no chunk to the upload client, writes nothing, and leaves the recorder state
untouched. -/
theorem C9_stop_before_start (flush : Blob) (ok : Bool) (rs : RecState)
    (h : rs.mediaRecorder = none) :
    stopOp flush ok rs = ⟨rs, [], false, some []⟩ := by
  simp [stopOp, h]

/-- C9: witness at a freshly constructed recorder. -/
theorem C9_witness :
    stopOp [1] true (RecState.mk0 "a" "b")
      = ⟨RecState.mk0 "a" "b", [], false, some []⟩ :=
  C9_stop_before_start [1] true (RecState.mk0 "a" "b") rfl

/-- C10: a `dataavailable` event whose segment has zero bytes produces no chunk
and does not consume a sequence number, and consequently over any run of the
capture loop — empty segments included — the sequence numbers handed to the
upload client are exactly `0, 1, 2, …` with no gaps, one per nonempty
segment. -/
theorem C10_gapless (segs : List Blob) (st : List Blob × Nat) :
    dataAvailable st [] = (st, none)
    ∧ (runData ([], 0) segs).2.map Upload.num
      = (List.range ((segs.filter (fun s => 0 < s.length)).length)).map
          Int.ofNat := by
  refine ⟨rfl, ?_⟩
  have h := runData_nums segs [] 0
  simpa using h

/-- C4: counterexample. On a false reading the progress estimate does not
always strictly increase: after 18 false readings it sits at its cap of 90, and
the 19th false reading leaves it at 90. -/
theorem C4_counterexample :
    ¬ ((runPoll pollStart (List.replicate 18 (some false))).1.processingProgress
        < (runPoll pollStart (List.replicate 19 (some false))).1.processingProgress) := by
  decide

/-- C4 (amended): the poller re-reads the record every 2 seconds; on the first
reading that observes the `updated` flag it clears the interval — so exactly
`pre.length + 1` reads are issued, none after — and the Controller advances to
Complete (progress 100, processing left, `onClose(true)` called). On readings
that do not observe the flag the progress estimate is non-decreasing (it
advances by 5 per false reading up to a cap of 90) and stays at most 90 —
strictly below 100 — and completion is never signalled. -/
theorem C4_amended :
    pollIntervalMs = 2000
    ∧ (∀ pre post : List (Option Bool), (∀ r ∈ pre, r ≠ some true) →
        (runPoll pollStart (pre ++ some true :: post)).2 = pre.length + 1
        ∧ (runPoll pollStart (pre ++ some true :: post)).1
            = ⟨100, false, false, true⟩)
    ∧ (∀ rs : List (Option Bool), (∀ r ∈ rs, r ≠ some true) →
        (runPoll pollStart rs).1.processingProgress ≤ 90
        ∧ (runPoll pollStart rs).1.closedComplete = false
        ∧ (runPoll pollStart rs).2 = rs.length)
    ∧ (∀ rs : List (Option Bool), (∀ r ∈ rs, r ≠ some true) →
        (runPoll pollStart rs).1.processingProgress
          ≤ (runPoll pollStart (rs ++ [some false])).1.processingProgress) := by
  refine ⟨rfl, ?_, ?_, ?_⟩
  · intro pre post hno
    obtain ⟨hact, hcc, hproc, hreads, hmono, hbound⟩ :=
      runPoll_noTrue pre pollStart rfl (by decide) hno
    have h1 : checkProcessingStatus (some true) (runPoll pollStart pre).1
        = ⟨100, false, false, true⟩ := rfl
    have hstep : runPoll (runPoll pollStart pre).1 (some true :: post)
        = (⟨100, false, false, true⟩, 1) := by
      simp [runPoll, hact, h1,
        runPoll_inactive post (⟨100, false, false, true⟩ : PollState) rfl]
    have happ := runPoll_append pre (some true :: post) pollStart
    rw [happ, hstep]
    exact ⟨by simp [hreads], rfl⟩
  · intro rs hno
    obtain ⟨hact, hcc, hproc, hreads, hmono, hbound⟩ :=
      runPoll_noTrue rs pollStart rfl (by decide) hno
    exact ⟨hbound, hcc, hreads⟩
  · intro rs hno
    obtain ⟨hact, hcc, hproc, hreads, hmono, hbound⟩ :=
      runPoll_noTrue rs pollStart rfl (by decide) hno
    have happ := runPoll_append rs [some false] pollStart
    have hstep : runPoll (runPoll pollStart rs).1 [some false]
        = (checkProcessingStatus (some false) (runPoll pollStart rs).1, 1) := by
      simp [runPoll, hact]
    rw [happ, hstep]
    simp only [checkProcessingStatus]
    omega

/-- C4: witness for the amended theorem — one false reading, then the flag. -/
theorem C4_amended_witness :
    (runPoll pollStart ([some false] ++ some true :: [])).2 = 1 + 1 :=
  (C4_amended.2.1 [some false] [] (by decide)).1

/-- A playback state whose audio is muted and has drifted a full second behind
the master video. -/
def mutedDrift : PlaybackState := ⟨1000, 0, true, true⟩

/-- C5: counterexample. With the audio muted and drift beyond the 100 ms
tolerance, a master `timeupdate` does not reseek the audio: the handler's
`!audioMuted` guard skips the drift correction, leaving the audio time
unchanged. -/
theorem C5_counterexample :
    driftToleranceMs < (mutedDrift.audioTimeMs - mutedDrift.videoTimeMs).natAbs
    ∧ handleVideoTimeUpdate mutedDrift = mutedDrift
    ∧ mutedDrift.audioTimeMs ≠ mutedDrift.videoTimeMs := by
  decide

/-- C5 (amended): on master `play` the synchronizer sets the audio time to the
video's current time and starts the audio, unless muted; on master
`timeupdate`, when not muted and the drift exceeds 100 ms, it reseeks the audio
to the video time (when muted, or within tolerance, it leaves the state
alone); on master `pause` it pauses the audio; on master `ended` it pauses the
audio and rewinds it to 0. -/
theorem C5_amended (st : PlaybackState) :
    (st.audioMuted = false →
      handleVideoPlay st
        = { st with audioTimeMs := st.videoTimeMs, audioPaused := false })
    ∧ (st.audioMuted = true → handleVideoPlay st = st)
    ∧ (st.audioMuted = false →
        driftToleranceMs < (st.audioTimeMs - st.videoTimeMs).natAbs →
        handleVideoTimeUpdate st = { st with audioTimeMs := st.videoTimeMs })
    ∧ ((st.audioMuted = true
          ∨ (st.audioTimeMs - st.videoTimeMs).natAbs ≤ driftToleranceMs) →
        handleVideoTimeUpdate st = st)
    ∧ handleVideoPause st = { st with audioPaused := true }
    ∧ handleVideoEnded st = { st with audioPaused := true, audioTimeMs := 0 } := by
  refine ⟨?_, ?_, ?_, ?_, rfl, rfl⟩
  · intro hm
    simp [handleVideoPlay, hm]
  · intro hm
    simp [handleVideoPlay, hm]
  · intro hm hd
    rw [handleVideoTimeUpdate, if_pos ⟨hm, hd⟩]
  · intro hcase
    rw [handleVideoTimeUpdate, if_neg]
    rintro ⟨hm, hd⟩
    rcases hcase with hmut | hle
    · rw [hmut] at hm
      exact Bool.noConfusion hm
    · exact absurd hd (not_lt.mpr hle)

/-- C5: witness — unmuted, drift beyond tolerance, `timeupdate` reseeks. -/
theorem C5_amended_witness :
    handleVideoTimeUpdate ⟨1000, 0, false, false⟩
      = (⟨1000, 1000, false, false⟩ : PlaybackState) :=
  (C5_amended ⟨1000, 0, false, false⟩).2.2.1 rfl (by decide)

/-- C6: counterexample. From an active call with a live stream, the transport
error handler leaves the call state but does not release the device handles:
the stream is still live afterwards. -/
theorem C6_counterexample :
    ctrlActive.streamLive = true
    ∧ (handleError ctrlActive).isCallActive = false
    ∧ (handleError ctrlActive).streamLive = true := by
  decide

/-- C6 (amended): when the transport reports an error, the Controller cancels
the connection timeout, clears the loading and call-active flags and surfaces
an error notification — but it does not release the camera/microphone handles:
the stream (and its attachment to the video element) is left exactly as it
was, to be released only by the later close/unload paths. -/
theorem C6_amended (st : CtrlState) :
    handleError st
      = { st with timeoutActive := false, errorToast := true,
                  isLoading := false, isCallActive := false }
    ∧ (handleError st).streamLive = st.streamLive
    ∧ (handleError st).videoSrcSet = st.videoSrcSet :=
  ⟨rfl, rfl, rfl⟩

/-- An empty persisted session record. -/
def blankSession : SessionRecord := ⟨none, none, false, none⟩

/-- C7: counterexample. The persisted record keeps no per-chunk data: writing
chunk 1's URL after chunk 0's yields exactly the record obtained by writing
chunk 1's URL alone — chunk 0's URL is overwritten and its sequence number was
never written anywhere (the callback does not even receive it). -/
theorem C7_counterexample :
    onChunkUploaded 7 "u1" false (onChunkUploaded 3 "u0" false blankSession)
      = onChunkUploaded 7 "u1" false blankSession
    ∧ (onChunkUploaded 3 "u0" false blankSession).videoChunkUrl = some "u0" :=
  ⟨rfl, rfl⟩

/-- C7 (amended): every completed chunk upload writes to the persisted session
record keyed by (storyId, sessionId): for a non-final chunk, the single
`videoChunkUrl` field plus the `lastUpdated` timestamp — no sequence number,
each write overwriting the previous chunk's URL; for the final chunk, the
final video URL plus the `videoComplete` flag and the timestamp. -/
theorem C7_amended (now : Nat) (url : String) (r : SessionRecord) :
    onChunkUploaded now url false r
      = { r with videoChunkUrl := some url, lastUpdated := some now }
    ∧ onChunkUploaded now url true r
      = { r with videoUrl := some url, videoComplete := true,
                 lastUpdated := some now }
    ∧ (∀ now0 url0,
        onChunkUploaded now url false (onChunkUploaded now0 url0 false r)
          = onChunkUploaded now url false r) :=
  ⟨rfl, rfl, fun _ _ => rfl⟩
